import Mathlib

/-
Verification of the VITURE stereo-camera probe tool
(src/tools/stereo_camera_probe.py) against its design specification.

The embedding models, from the source:
  * the command frame codec (build_stereo_command, build_short_command),
  * the transport wrappers (send_command, read_response),
  * the extended payload read loop of probe_ep06_commands (the 0xE4
    exchange, lines 843-919),
  * the streaming capture loop of capture_ep82_stream (lines 1438-1527):
    packet classification, frame ingestion, keep-alive re-triggering and
    the duration check.
Device I/O outcomes are supplied by oracles (lists of outcomes); wall-clock
readings are supplied as natural-number millisecond timestamps.
-/

namespace StereoProbe

/-- Long-form 13-byte command encoder (build_stereo_command, lines 131-164):
magic FA 55, byte 2 command type, bytes 3-4 little-endian size parameter,
byte 5 flag, byte 6 camera id, bytes 7-12 zero.  Returns none when a
byte-sized argument is out of range (a Python bytearray cell assignment
raises); the size parameter is masked with 0xFF / >> 8, never rejected. -/
def build_stereo_command (cmd_type size_param flag camera_id : Nat) :
    Option (List Nat) :=
  if cmd_type < 256 ∧ flag < 256 ∧ camera_id < 256 then
    some [0xFA, 0x55, cmd_type, size_param % 256, size_param / 256 % 256,
          flag, camera_id, 0, 0, 0, 0, 0, 0]
  else none

/-- Short 5-byte command encoder (build_short_command, lines 166-168): the
five bytes are exactly the caller's arguments; nothing is enforced. -/
def build_short_command (byte0 byte1 byte2 byte3 byte4 : Nat) :
    Option (List Nat) :=
  if byte0 < 256 ∧ byte1 < 256 ∧ byte2 < 256 ∧ byte3 < 256 ∧ byte4 < 256 then
    some [byte0, byte1, byte2, byte3, byte4]
  else none

/-- Modelled from the spec: the source has no command-frame decoder (only
responses are parsed, with a different layout), so the long-form fields are
read back at the offsets the encoder fixes -- byte 2 command code, bytes 3-4
little-endian size, byte 5 flag, byte 6 target id -- ignoring the reserved
tail. -/
def decode_long_command (frame : List Nat) : Nat × Nat × Nat × Nat :=
  (frame.getD 2 0, frame.getD 3 0 + 256 * frame.getD 4 0,
   frame.getD 5 0, frame.getD 6 0)

/-- Outcome of the underlying usb write in send_command: success with a byte
count, or a USBError that is either a timeout or any other failure. -/
inductive WriteOutcome where
  | ok (n : Nat)
  | timeoutErr
  | otherErr
deriving DecidableEq

/-- send_command (lines 170-178): returns the byte count on success and -1
for ANY USBError; the two error kinds produce the same result. -/
def send_command : WriteOutcome → Int
  | .ok n => (n : Int)
  | .timeoutErr => -1
  | .otherErr => -1

/-- Outcome of the underlying usb read in read_response. -/
inductive ReadAttempt where
  | ok (data : List Nat)
  | timeoutErr
  | otherErr
deriving DecidableEq

/-- Result of read_response: the returned value together with which log
message was printed (the timeout branch prints a distinct message). -/
structure ReadResult where
  value : Option (List Nat)
  loggedTimeout : Bool
deriving DecidableEq

/-- read_response (lines 180-191): returns the data on success; on a
USBError it logs "Read timeout" when the error text says timed out or
errno is 110, otherwise logs a generic error -- but returns None in both
error cases. -/
def read_response : ReadAttempt → ReadResult
  | .ok d => ⟨some d, false⟩
  | .timeoutErr => ⟨none, true⟩
  | .otherErr => ⟨none, false⟩

/-- One streaming read outcome for the 0xE4 payload loop: a successful read
delivering n bytes, a timeout, or a fatal non-timeout USBError (which the
source re-raises). -/
inductive StreamRead where
  | ok (n : Nat)
  | timeout
  | fatal
deriving DecidableEq

/-- Result of the 0xE4 payload accumulation loop: bytes collected, declared
bytes still remaining (0 when satisfied or overshot; the source prints the
collected/expected pair so a shortfall is always visible), and the number
of reads performed. -/
structure E4Result where
  total : Nat
  remaining : Nat
  reads : Nat
deriving DecidableEq

/-- The 0xE4 extended payload read loop (lines 857-878):
while bytes_remaining > 0 and read_count < 500, read up to
min(16384, bytes_remaining + 1000) bytes; an empty chunk or a timeout
breaks the loop, a non-timeout USBError propagates (result none).  Each
successful chunk is clamped to the requested size, mirroring that a usb
read returns at most the requested count.  An exhausted oracle behaves
like a timeout. -/
def e4ReadLoop : List StreamRead → Nat → Nat → Nat → Option E4Result
  | [], rem, total, count => some ⟨total, rem, count⟩
  | evt :: rest, rem, total, count =>
    if rem = 0 ∨ 500 ≤ count then some ⟨total, rem, count⟩
    else
      match evt with
      | .timeout => some ⟨total, rem, count⟩
      | .fatal => none
      | .ok n =>
        let c := min n (min 16384 (rem + 1000))
        if c = 0 then some ⟨total, rem, count⟩
        else e4ReadLoop rest (rem - c) (total + c) (count + 1)

/-- The 0xE4 exchange entry (lines 846-853): a header of at least 6 bytes
is parsed as status byte 3 and declared payload length bytes 4-5
little-endian; when status is 0 and the length positive, the payload loop
runs. -/
def e4Exchange (header : List Nat) (oracle : List StreamRead) :
    Option E4Result :=
  if 6 ≤ header.length then
    if header.getD 3 0 = 0 ∧ 0 < header.getD 4 0 + 256 * header.getD 5 0 then
      e4ReadLoop oracle (header.getD 4 0 + 256 * header.getD 5 0) 0 0
    else none
  else none

/-- Semantic packet type assigned by the capture loop's classification of a
raw EP 0x82 packet (lines 1480-1506). -/
inductive PacketType where
  | FRAME
  | TELEMETRY
  | OTHER
deriving DecidableEq

/-- Packet classification (lines 1480-1506): packets of at least 2 bytes
are matched on their first two bytes, AA 8F is a camera frame, A2 C4 is
telemetry (IMU), anything else -- including packets shorter than 2 bytes,
which the source labels SHORT but counts in the same other counter -- is
OTHER. -/
def classify (p : List Nat) : PacketType :=
  if 2 ≤ p.length then
    if p.take 2 = [0xAA, 0x8F] then .FRAME
    else if p.take 2 = [0xA2, 0xC4] then .TELEMETRY
    else .OTHER
  else .OTHER

/-- Session counters of capture_ep82_stream (lines 1438-1452): total bytes
written, read count, per-type packet counts, consecutive-timeout count, the
keep-alive timer (last trigger time, ms), the set of distinct frame numbers
and the per-camera packet counts. -/
structure CaptureState where
  bytesTotal : Nat
  readCount : Nat
  framePk : Nat
  imuPk : Nat
  otherPk : Nat
  timeoutCount : Nat
  lastTrigger : Nat
  frameNumbers : Finset Nat
  leftPk : Nat
  rightPk : Nat
deriving DecidableEq

/-- Initial session state: every counter 0, empty frame set, last trigger
time 0 (the source initialises last_trigger_time = 0 so the first
iteration always re-triggers). -/
def initState : CaptureState := ⟨0, 0, 0, 0, 0, 0, 0, ∅, 0, 0⟩

/-- Everything in the session state except the keep-alive timer: the
counters the session report is built from. -/
def countersOf (s : CaptureState) :
    Nat × Nat × Nat × Nat × Nat × Nat × Finset Nat × Nat × Nat :=
  (s.bytesTotal, s.readCount, s.framePk, s.imuPk, s.otherPk,
   s.timeoutCount, s.frameNumbers, s.leftPk, s.rightPk)

/-- Outcome of one streaming read from EP 0x82 in the capture loop. -/
inductive ReadOutcome where
  | ok (data : List Nat)
  | timeout
  | err
deriving DecidableEq

/-- Oracle for one capture-loop iteration: the wall-clock reading (ms), the
outcome of the trigger write and of its acknowledgement read (consulted
only when the keep-alive fires), and the outcome of the streaming read. -/
structure IterInput where
  now : Nat
  writeOk : Bool
  ackOk : Bool
  readOutcome : ReadOutcome
deriving DecidableEq

/-- The keep-alive re-trigger interval: 0.3 s in the source, as ms. -/
def keepAliveMs : Nat := 300

/-- Keep-alive step (lines 1457-1471): when strictly more than the interval
has elapsed since the last trigger, the 0x95 trigger command is written;
on write success the ack read outcome is ignored and the timer is reset to
now; on write failure nothing changes (the assignment is skipped by the
bare except).  The boolean records whether the branch fired. -/
def triggerStep (s : CaptureState) (i : IterInput) : CaptureState × Bool :=
  if keepAliveMs < i.now - s.lastTrigger then
    (if i.writeOk then { s with lastTrigger := i.now } else s, true)
  else (s, false)

/-- Frame ingestion (lines 1487-1496): for an AA 8F packet of at least 12
bytes, the little-endian 16-bit frame number at bytes 4-5 is added to the
distinct set and the camera flag at byte 8 selects the per-camera counter
(0xFC left, 0xFD right, anything else neither); shorter packets are left
untouched here. -/
def ingestFrame (s : CaptureState) (p : List Nat) : CaptureState :=
  if 12 ≤ p.length then
    let s1 := { s with
      frameNumbers := insert (p.getD 4 0 + 256 * p.getD 5 0) s.frameNumbers }
    if p.getD 8 0 = 0xFC then { s1 with leftPk := s1.leftPk + 1 }
    else if p.getD 8 0 = 0xFD then { s1 with rightPk := s1.rightPk + 1 }
    else s1
  else s

/-- Streaming read step (lines 1473-1526): a successful non-empty read
bumps the read count, classifies the packet and updates the matching
counter (FRAME packets also go through ingestFrame), adds the byte length
and resets the consecutive-timeout count; an empty read does nothing; a
timeout bumps the timeout count; any other USBError is only logged and
changes nothing. -/
def readStep (s : CaptureState) (o : ReadOutcome) : CaptureState :=
  match o with
  | .ok data =>
    if data = [] then s
    else
      let s0 := { s with readCount := s.readCount + 1 }
      let s1 :=
        match classify data with
        | .FRAME => ingestFrame { s0 with framePk := s0.framePk + 1 } data
        | .TELEMETRY => { s0 with imuPk := s0.imuPk + 1 }
        | .OTHER => { s0 with otherPk := s0.otherPk + 1 }
      { s1 with bytesTotal := s1.bytesTotal + data.length, timeoutCount := 0 }
  | .timeout => { s with timeoutCount := s.timeoutCount + 1 }
  | .err => s

/-- One capture-loop iteration body: the keep-alive step followed by the
streaming read step. -/
def captureStep (s : CaptureState) (i : IterInput) : CaptureState :=
  readStep (triggerStep s i).1 i.readOutcome

/-- The capture loop (lines 1454-1526): while the elapsed time is below
the configured duration, run one iteration; the first wall-clock reading
at or past start + duration ends the loop and is returned as the close
time.  An exhausted oracle before the duration elapses returns none for
the close time (a model artifact: real iterations always continue). -/
def captureRun (dur start : Nat) :
    List IterInput → CaptureState → CaptureState × Option Nat
  | [], s => (s, none)
  | i :: rest, s =>
    if i.now - start < dur then captureRun dur start rest (captureStep s i)
    else (s, some i.now)

/-- Adjacent wall-clock readings of a trace each exceed the previous one
(starting from a given origin) by at most d ms. -/
def timesBounded (d : Nat) : Nat → List IterInput → Bool
  | _, [] => true
  | prev, i :: rest =>
    decide (i.now ≤ prev + d) && timesBounded d i.now rest

/-- Replaces every trigger-write and acknowledgement-read outcome of a
trace by success, keeping the wall-clock readings and streaming-read
outcomes: used to state that the keep-alive outcomes are ignored. -/
def scrubTrigger (tr : List IterInput) : List IterInput :=
  tr.map (fun i => ⟨i.now, true, true, i.readOutcome⟩)

/-- C1: for every valid long-form command (command code, 16-bit size,
flag and target id each fitting their field widths), decoding the 13-byte
frame produced by the encoder at its fixed offsets recovers exactly the
command code, size parameter, flag and target id, ignoring the reserved
tail. -/
theorem c1_codec_round_trip (ct sz fl cid : Nat)
    (h1 : ct < 256) (h2 : sz < 65536) (h3 : fl < 256) (h4 : cid < 256) :
    Option.map decode_long_command (build_stereo_command ct sz fl cid)
      = some (ct, sz, fl, cid) := by
  have hsz : sz % 256 + 256 * (sz / 256 % 256) = sz := by omega
  simp [build_stereo_command, decode_long_command, h1, h3, h4, hsz]

/-- Witness for C1 at the canonical probe command EA / 0x0800 / 01 / 00. -/
theorem c1_codec_round_trip_witness :
    Option.map decode_long_command (build_stereo_command 0xEA 0x0800 1 0)
      = some (0xEA, 0x0800, 1, 0) :=
  c1_codec_round_trip 0xEA 0x0800 1 0 (by decide) (by decide) (by decide)
    (by decide)

/-- C4: classification is a total deterministic function of the packet
bytes: a packet whose first two bytes are AA 8F is FRAME, one whose first
two bytes are A2 C4 is TELEMETRY, and every other packet -- including
zero-length and one-byte packets -- is OTHER. -/
theorem c4_classify_total (p : List Nat) :
    classify p =
      (if p.take 2 = [0xAA, 0x8F] then .FRAME
       else if p.take 2 = [0xA2, 0xC4] then .TELEMETRY
       else .OTHER) := by
  match p with
  | [] => simp [classify]
  | [a] => simp [classify]
  | a :: b :: t => simp [classify]

/-- C5 counterexample: the short-form encoder puts no magic in the frame;
the 5-byte command 01 00 00 00 00 used by the source (try_start_commands)
is produced as-is, with first two bytes 01 00 instead of the FA 55 magic. -/
theorem c5_counterexample :
    build_short_command 1 0 0 0 0 = some [1, 0, 0, 0, 0] ∧
    List.take 2 [1, 0, 0, 0, 0] ≠ [0xFA, 0x55] := by
  constructor
  · rfl
  · decide

/-- C5 amended: every valid long-form frame carries the FA 55 magic in its
first two bytes, has length exactly 13 and zero bytes at offsets 7-12;
every valid short-form frame has length exactly 5, but its bytes are
entirely caller-supplied (the magic is not enforced). -/
theorem c5_amended (ct sz fl cid b0 b1 b2 b3 b4 : Nat)
    (h1 : ct < 256) (h3 : fl < 256) (h4 : cid < 256)
    (k0 : b0 < 256) (k1 : b1 < 256) (k2 : b2 < 256) (k3 : b3 < 256)
    (k4 : b4 < 256) :
    (∃ f, build_stereo_command ct sz fl cid = some f ∧
      f.length = 13 ∧ f.take 2 = [0xFA, 0x55] ∧
      f.drop 7 = [0, 0, 0, 0, 0, 0]) ∧
    (∃ g, build_short_command b0 b1 b2 b3 b4 = some g ∧ g.length = 5) := by
  constructor
  · refine ⟨[0xFA, 0x55, ct, sz % 256, sz / 256 % 256, fl, cid,
      0, 0, 0, 0, 0, 0], ?_, by simp, by simp, by simp⟩
    simp [build_stereo_command, h1, h3, h4]
  · refine ⟨[b0, b1, b2, b3, b4], ?_, by simp⟩
    simp [build_short_command, k0, k1, k2, k3, k4]

/-- Witness for C5 amended at the canonical long command and the observed
short command 01 00 00 00 00. -/
theorem c5_amended_witness :
    (∃ f, build_stereo_command 0xEA 0x0800 1 0 = some f ∧
      f.length = 13 ∧ f.take 2 = [0xFA, 0x55] ∧
      f.drop 7 = [0, 0, 0, 0, 0, 0]) ∧
    (∃ g, build_short_command 1 0 0 0 0 = some g ∧ g.length = 5) :=
  c5_amended 0xEA 0x0800 1 0 1 0 0 0 0 (by decide) (by decide) (by decide)
    (by decide) (by decide) (by decide) (by decide) (by decide)

/-- C6 counterexample: a timeout and any other USBError produce identical
results -- read_response returns None for both and send_command returns -1
for both -- so a caller cannot distinguish the two outcomes from the
operation's result. -/
theorem c6_counterexample :
    (read_response .timeoutErr).value = (read_response .otherErr).value ∧
    send_command .timeoutErr = send_command .otherErr := by
  constructor
  · rfl
  · rfl

/-- C6 amended: transport failures are distinguished only in the log, not
in the result: read_response logs the timeout branch exactly for timeouts
but returns None for both failure kinds, and send_command returns -1 for
any USBError; successes return the data / byte count. -/
theorem c6_amended :
    ((read_response .timeoutErr).value = none ∧
     (read_response .otherErr).value = none) ∧
    ((read_response .timeoutErr).loggedTimeout = true ∧
     (read_response .otherErr).loggedTimeout = false) ∧
    (send_command .timeoutErr = -1 ∧ send_command .otherErr = -1) ∧
    (∀ d, (read_response (.ok d)).value = some d) ∧
    (∀ n, send_command (.ok n) = (n : Int)) := by
  refine ⟨⟨rfl, rfl⟩, ⟨rfl, rfl⟩, ⟨rfl, rfl⟩, fun d => rfl, fun n => rfl⟩

/-- The payload loop exits immediately once nothing is declared
remaining. -/
theorem e4ReadLoop_zero (oracle : List StreamRead) (total count : Nat) :
    e4ReadLoop oracle 0 total count = some ⟨total, 0, count⟩ := by
  cases oracle with
  | nil => rfl
  | cons evt rest => simp [e4ReadLoop]

/-- The payload loop collects at most the declared remaining length plus
the 1000-byte extra request buffer. -/
theorem e4ReadLoop_total_le (oracle : List StreamRead) :
    ∀ rem total count r, e4ReadLoop oracle rem total count = some r →
      r.total ≤ total + rem + 1000 := by
  induction oracle with
  | nil =>
    intro rem total count r h
    simp only [e4ReadLoop, Option.some.injEq] at h
    subst h
    show total ≤ total + rem + 1000
    omega
  | cons evt rest ih =>
    intro rem total count r h
    by_cases hg : rem = 0 ∨ 500 ≤ count
    · simp only [e4ReadLoop, if_pos hg, Option.some.injEq] at h
      subst h
      show total ≤ total + rem + 1000
      omega
    · cases evt with
      | timeout =>
        simp only [e4ReadLoop, if_neg hg, Option.some.injEq] at h
        subst h
        show total ≤ total + rem + 1000
        omega
      | fatal =>
        simp only [e4ReadLoop, if_neg hg] at h
        exact absurd h (by simp)
      | ok n =>
        simp only [e4ReadLoop, if_neg hg] at h
        by_cases hc0 : min n (min 16384 (rem + 1000)) = 0
        · rw [if_pos hc0] at h
          injection h with h
          subst h
          show total ≤ total + rem + 1000
          omega
        · rw [if_neg hc0] at h
          have hcle : min n (min 16384 (rem + 1000)) ≤ rem + 1000 :=
            le_trans (min_le_right _ _) (min_le_right _ _)
          by_cases hcr : min n (min 16384 (rem + 1000)) ≤ rem
          · have hrec := ih (rem - min n (min 16384 (rem + 1000)))
              (total + min n (min 16384 (rem + 1000))) (count + 1) r h
            omega
          · have hz : rem - min n (min 16384 (rem + 1000)) = 0 := by omega
            rw [hz, e4ReadLoop_zero] at h
            injection h with h
            subst h
            show total + min n (min 16384 (rem + 1000)) ≤ total + rem + 1000
            omega

/-- While the declared length has not been reached, the collected and
remaining byte counts always sum to the original total: a truncated
result therefore carries strictly fewer bytes than declared. -/
theorem e4ReadLoop_sum (oracle : List StreamRead) :
    ∀ rem total count r, e4ReadLoop oracle rem total count = some r →
      0 < r.remaining → r.total + r.remaining = total + rem := by
  induction oracle with
  | nil =>
    intro rem total count r h _
    simp only [e4ReadLoop, Option.some.injEq] at h
    subst h
    show total + rem = total + rem
    rfl
  | cons evt rest ih =>
    intro rem total count r h hpos
    by_cases hg : rem = 0 ∨ 500 ≤ count
    · simp only [e4ReadLoop, if_pos hg, Option.some.injEq] at h
      subst h
      show total + rem = total + rem
      rfl
    · cases evt with
      | timeout =>
        simp only [e4ReadLoop, if_neg hg, Option.some.injEq] at h
        subst h
        show total + rem = total + rem
        rfl
      | fatal =>
        simp only [e4ReadLoop, if_neg hg] at h
        exact absurd h (by simp)
      | ok n =>
        simp only [e4ReadLoop, if_neg hg] at h
        by_cases hc0 : min n (min 16384 (rem + 1000)) = 0
        · rw [if_pos hc0] at h
          injection h with h
          subst h
          show total + rem = total + rem
          rfl
        · rw [if_neg hc0] at h
          by_cases hcr : min n (min 16384 (rem + 1000)) ≤ rem
          · have hrec := ih (rem - min n (min 16384 (rem + 1000)))
              (total + min n (min 16384 (rem + 1000))) (count + 1) r h hpos
            omega
          · have hz : rem - min n (min 16384 (rem + 1000)) = 0 := by omega
            rw [hz, e4ReadLoop_zero] at h
            injection h with h
            subst h
            simp at hpos

/-- The payload loop performs at most 500 reads. -/
theorem e4ReadLoop_reads_le (oracle : List StreamRead) :
    ∀ rem total count r, e4ReadLoop oracle rem total count = some r →
      count ≤ 500 → r.reads ≤ 500 := by
  induction oracle with
  | nil =>
    intro rem total count r h hc
    simp only [e4ReadLoop, Option.some.injEq] at h
    subst h
    exact hc
  | cons evt rest ih =>
    intro rem total count r h hc
    by_cases hg : rem = 0 ∨ 500 ≤ count
    · simp only [e4ReadLoop, if_pos hg, Option.some.injEq] at h
      subst h
      exact hc
    · have hlt : count < 500 := by omega
      cases evt with
      | timeout =>
        simp only [e4ReadLoop, if_neg hg, Option.some.injEq] at h
        subst h
        exact hc
      | fatal =>
        simp only [e4ReadLoop, if_neg hg] at h
        exact absurd h (by simp)
      | ok n =>
        simp only [e4ReadLoop, if_neg hg] at h
        by_cases hc0 : min n (min 16384 (rem + 1000)) = 0
        · rw [if_pos hc0] at h
          injection h with h
          subst h
          exact hc
        · rw [if_neg hc0] at h
          exact ih _ _ (count + 1) r h (by omega)

/-- C2 counterexample: a response declaring payload length 5 with no bytes
in the first read, followed by a single successful additional read of 1005
bytes (allowed, since the loop requests min(16384, remaining + 1000) =
1005 bytes), makes the exchange return 1005 payload bytes -- neither
exactly 5 nor a truncated at-most-5 result, and more than the declared
length. -/
theorem c2_counterexample :
    e4Exchange [0xFA, 0x55, 0xE4, 0x00, 0x05, 0x00] [.ok 1005]
      = some ⟨1005, 0, 1⟩ ∧ ¬(1005 ≤ 5) := by
  constructor
  · rfl
  · decide

/-- C2 amended: for a response declaring payload length L beyond the first
read, the exchange performs at most 500 additional reads; because each
read requests up to 1000 bytes beyond the remaining length, the collected
payload can exceed L by up to 1000 bytes (total at most L + 1000) instead
of being exactly L; and whenever collection stops with bytes still
remaining (timeout, empty read or attempt cap), the collected and
remaining counts sum to L, so strictly fewer than L bytes are returned
together with the declared length -- the size mismatch is reported, never
silently dropped. -/
theorem c2_amended (header : List Nat) (oracle : List StreamRead)
    (L : Nat) (r : E4Result)
    (hL : L = header.getD 4 0 + 256 * header.getD 5 0)
    (h : e4Exchange header oracle = some r) :
    r.total ≤ L + 1000 ∧ (0 < r.remaining → r.total + r.remaining = L) ∧
    r.reads ≤ 500 := by
  unfold e4Exchange at h
  by_cases h6 : 6 ≤ header.length
  · rw [if_pos h6] at h
    by_cases hst : header.getD 3 0 = 0 ∧
        0 < header.getD 4 0 + 256 * header.getD 5 0
    · rw [if_pos hst] at h
      subst hL
      refine ⟨?_, ?_, ?_⟩
      · have := e4ReadLoop_total_le oracle _ 0 0 r h
        omega
      · intro hr
        have := e4ReadLoop_sum oracle _ 0 0 r h hr
        omega
      · exact e4ReadLoop_reads_le oracle _ 0 0 r h (by omega)
    · rw [if_neg hst] at h
      exact absurd h (by simp)
  · rw [if_neg h6] at h
    exact absurd h (by simp)

/-- Witness for C2 amended: declared length 5, first additional read times
out, so the exchange returns 0 of 5 bytes with the shortfall visible. -/
theorem c2_amended_witness :
    (⟨0, 5, 0⟩ : E4Result).total ≤ 5 + 1000 ∧
    (0 < (⟨0, 5, 0⟩ : E4Result).remaining →
      (⟨0, 5, 0⟩ : E4Result).total + (⟨0, 5, 0⟩ : E4Result).remaining = 5) ∧
    (⟨0, 5, 0⟩ : E4Result).reads ≤ 500 :=
  c2_amended [0xFA, 0x55, 0xE4, 0x00, 0x05, 0x00] [.timeout] 5 ⟨0, 5, 0⟩
    (by decide) (by rfl)

/-- C3 counterexample: with a 1000 ms capture duration, a non-timeout
transport error on the first streaming read (at t = 10 ms) does NOT close
the session: the next iteration (t = 20 ms) still reads and ingests a
FRAME packet, and the session only closes when the duration check fails at
t = 5000 ms -- so the loop performs further streaming reads after the
error and no error-driven transition to Closed happens. -/
theorem c3_counterexample :
    captureRun 1000 0
      [⟨10, true, true, .err⟩,
       ⟨20, true, true, .ok [0xAA, 0x8F, 0, 0, 0x07, 0, 0, 0, 0xFC, 0, 0, 0]⟩,
       ⟨5000, true, true, .timeout⟩] initState
      = (⟨12, 1, 1, 0, 0, 0, 0, {7}, 1, 0⟩, some 5000) := by
  decide

/-- C3 amended: a non-timeout transport error during Streaming is only
logged: the failed read changes nothing in the session state, the loop
keeps running (its continue/exit decision is the time check alone), and
all counters accumulated before and after the error are preserved for the
final report; the error is not surfaced as a terminating condition. -/
theorem c3_amended :
    (∀ s : CaptureState, readStep s .err = s) ∧
    (∀ (s : CaptureState) (i : IterInput), i.readOutcome = .err →
      captureStep s i = (triggerStep s i).1 ∧
      countersOf (captureStep s i) = countersOf s) ∧
    (∀ (dur start : Nat) (i : IterInput) (rest : List IterInput)
        (s : CaptureState), i.now - start < dur →
      captureRun dur start (i :: rest) s
        = captureRun dur start rest (captureStep s i)) := by
  refine ⟨fun s => rfl, fun s i h => ?_, fun dur start i rest s h => ?_⟩
  · constructor
    · show readStep (triggerStep s i).1 i.readOutcome = (triggerStep s i).1
      rw [h]
      rfl
    · show countersOf (readStep (triggerStep s i).1 i.readOutcome)
        = countersOf s
      rw [h]
      show countersOf (triggerStep s i).1 = countersOf s
      unfold triggerStep
      split_ifs <;> rfl
  · simp only [captureRun, if_pos h]

/-- Witness for C3 amended at a concrete error iteration. -/
theorem c3_amended_witness :
    (captureStep initState ⟨10, true, true, .err⟩
       = (triggerStep initState ⟨10, true, true, .err⟩).1 ∧
     countersOf (captureStep initState ⟨10, true, true, .err⟩)
       = countersOf initState) ∧
    captureRun 1000 0 [⟨10, true, true, .err⟩] initState
      = captureRun 1000 0 [] (captureStep initState ⟨10, true, true, .err⟩) :=
  ⟨c3_amended.2.1 initState ⟨10, true, true, .err⟩ rfl,
   c3_amended.2.2 1000 0 ⟨10, true, true, .err⟩ [] initState (by decide)⟩

/-- The capture loop's close time: as long as every wall-clock reading
exceeds the previous one by at most d ms, the first reading at or past
start + duration -- which ends the loop -- is at most start + duration + d. -/
theorem captureRun_time_aux :
    ∀ (tr : List IterInput) (dur start d prev : Nat) (s s2 : CaptureState)
      (tE : Nat), timesBounded d prev tr = true → prev ≤ start + dur →
      captureRun dur start tr s = (s2, some tE) → tE ≤ start + dur + d := by
  intro tr
  induction tr with
  | nil =>
    intro dur start d prev s s2 tE _ _ h
    simp [captureRun, Prod.ext_iff] at h
  | cons i rest ih =>
    intro dur start d prev s s2 tE h1 h2 h3
    simp only [timesBounded, Bool.and_eq_true, decide_eq_true_eq] at h1
    by_cases hlt : i.now - start < dur
    · simp only [captureRun, if_pos hlt] at h3
      exact ih dur start d i.now _ s2 tE h1.2 (by omega) h3
    · simp only [captureRun, if_neg hlt] at h3
      have hsnd : some i.now = some tE := congrArg Prod.snd h3
      injection hsnd with hsnd
      omega

/-- C7: a capture run with configured duration D closes within
D + d of start whenever consecutive wall-clock readings advance by at most
d (instantiated with d = one streaming-read timeout plus one keep-alive
interval, the bound one loop iteration's blocking calls obey), regardless
of the read outcomes; and every iteration re-checks the elapsed time: the
first reading at or past the deadline ends the loop at once, whatever
remains in the trace. -/
theorem c7_close_time_bound :
    (∀ (dur start d : Nat) (tr : List IterInput) (s s2 : CaptureState)
        (tE : Nat), timesBounded d start tr = true →
        captureRun dur start tr s = (s2, some tE) →
        tE ≤ start + dur + d) ∧
    (∀ (dur start : Nat) (i : IterInput) (rest : List IterInput)
        (s : CaptureState), dur ≤ i.now - start →
        captureRun dur start (i :: rest) s = (s, some i.now)) := by
  constructor
  · intro dur start d tr s s2 tE h1 h2
    exact captureRun_time_aux tr dur start d start s s2 tE h1
      (Nat.le_add_right _ _) h2
  · intro dur start i rest s h
    simp only [captureRun, if_neg (Nat.not_lt.mpr h)]

/-- Witness for C7: duration 100 ms, iteration gap bound 200 ms, a single
reading at 150 ms closes the session at 150 ≤ 0 + 100 + 200. -/
theorem c7_close_time_bound_witness :
    (150 : Nat) ≤ 0 + 100 + 200 ∧
    captureRun 100 0 [⟨150, true, true, .timeout⟩] initState
      = (initState, some 150) :=
  ⟨c7_close_time_bound.1 100 0 200 [⟨150, true, true, .timeout⟩] initState
      initState 150 (by decide) (by decide),
   c7_close_time_bound.2 100 0 ⟨150, true, true, .timeout⟩ [] initState
      (by decide)⟩

/-- Frame ingestion touches only the frame-number set and the per-camera
counters; every other field is unchanged. -/
theorem ingestFrame_bytesTotal (s : CaptureState) (p : List Nat) :
    (ingestFrame s p).bytesTotal = s.bytesTotal := by
  unfold ingestFrame
  split_ifs <;> rfl

/-- Frame ingestion leaves the read count unchanged. -/
theorem ingestFrame_readCount (s : CaptureState) (p : List Nat) :
    (ingestFrame s p).readCount = s.readCount := by
  unfold ingestFrame
  split_ifs <;> rfl

/-- Frame ingestion leaves the FRAME packet count unchanged. -/
theorem ingestFrame_framePk (s : CaptureState) (p : List Nat) :
    (ingestFrame s p).framePk = s.framePk := by
  unfold ingestFrame
  split_ifs <;> rfl

/-- Frame ingestion leaves the telemetry packet count unchanged. -/
theorem ingestFrame_imuPk (s : CaptureState) (p : List Nat) :
    (ingestFrame s p).imuPk = s.imuPk := by
  unfold ingestFrame
  split_ifs <;> rfl

/-- Frame ingestion leaves the other-packet count unchanged. -/
theorem ingestFrame_otherPk (s : CaptureState) (p : List Nat) :
    (ingestFrame s p).otherPk = s.otherPk := by
  unfold ingestFrame
  split_ifs <;> rfl

/-- Frame ingestion leaves the timeout count unchanged. -/
theorem ingestFrame_timeoutCount (s : CaptureState) (p : List Nat) :
    (ingestFrame s p).timeoutCount = s.timeoutCount := by
  unfold ingestFrame
  split_ifs <;> rfl

/-- The left-camera counter increments exactly for a long enough packet
whose camera flag byte is 0xFC. -/
theorem ingestFrame_leftPk (s : CaptureState) (p : List Nat) :
    (ingestFrame s p).leftPk = s.leftPk +
      (if 12 ≤ p.length ∧ p.getD 8 0 = 0xFC then 1 else 0) := by
  unfold ingestFrame
  split_ifs <;> simp_all

/-- The right-camera counter increments exactly for a long enough packet
whose camera flag byte is 0xFD. -/
theorem ingestFrame_rightPk (s : CaptureState) (p : List Nat) :
    (ingestFrame s p).rightPk = s.rightPk +
      (if 12 ≤ p.length ∧ p.getD 8 0 = 0xFD then 1 else 0) := by
  unfold ingestFrame
  split_ifs <;> simp_all

/-- For a packet of at least 12 bytes, ingestion inserts the little-endian
frame number read at bytes 4-5 into the distinct-frame set. -/
theorem ingestFrame_frameNumbers_long (s : CaptureState) (p : List Nat)
    (h12 : 12 ≤ p.length) :
    (ingestFrame s p).frameNumbers
      = insert (p.getD 4 0 + 256 * p.getD 5 0) s.frameNumbers := by
  unfold ingestFrame
  rw [if_pos h12]
  split_ifs <;> rfl

/-- Ingestion of a packet shorter than 12 bytes changes nothing at all. -/
theorem ingestFrame_short (s : CaptureState) (p : List Nat)
    (h : p.length < 12) : ingestFrame s p = s := by
  unfold ingestFrame
  rw [if_neg (by omega)]

/-- The distinct-frame set only grows under ingestion. -/
theorem ingestFrame_frameNumbers_subset (s : CaptureState) (p : List Nat) :
    s.frameNumbers ⊆ (ingestFrame s p).frameNumbers := by
  unfold ingestFrame
  split_ifs <;> simp [Finset.subset_insert]

/-- Ingestion commutes with overwriting the keep-alive timer field: it
never reads nor writes the timer. -/
theorem ingestFrame_setTrigger (b rc f im ot tc lt x : Nat)
    (fn : Finset Nat) (l r : Nat) (p : List Nat) :
    ingestFrame ⟨b, rc, f, im, ot, tc, x, fn, l, r⟩ p
      = { ingestFrame ⟨b, rc, f, im, ot, tc, lt, fn, l, r⟩ p with
          lastTrigger := x } := by
  unfold ingestFrame
  split_ifs <;> rfl

/-- The streaming read step commutes with overwriting the keep-alive timer
field: it never reads nor writes the timer. -/
theorem readStep_setTrigger (b rc f im ot tc lt x : Nat) (fn : Finset Nat)
    (l r : Nat) (o : ReadOutcome) :
    readStep ⟨b, rc, f, im, ot, tc, x, fn, l, r⟩ o
      = { readStep ⟨b, rc, f, im, ot, tc, lt, fn, l, r⟩ o with
          lastTrigger := x } := by
  cases o with
  | err => rfl
  | timeout => rfl
  | ok data =>
    by_cases hd : data = []
    · simp [readStep, hd]
    · cases hcl : classify data with
      | FRAME =>
        simp only [readStep, if_neg hd, hcl]
        rw [ingestFrame_setTrigger b (rc + 1) (f + 1) im ot tc lt x fn l r
          data]
      | TELEMETRY =>
        simp only [readStep, if_neg hd, hcl]
      | OTHER =>
        simp only [readStep, if_neg hd, hcl]

/-- The keep-alive step never changes any session counter, only possibly
the keep-alive timer. -/
theorem triggerStep_countersOf (s : CaptureState) (i : IterInput) :
    countersOf (triggerStep s i).1 = countersOf s := by
  unfold triggerStep
  split_ifs <;> rfl

/-- Field-level version of triggerStep_countersOf. -/
theorem triggerStep_fields (s : CaptureState) (i : IterInput) :
    (triggerStep s i).1.bytesTotal = s.bytesTotal ∧
    (triggerStep s i).1.readCount = s.readCount ∧
    (triggerStep s i).1.framePk = s.framePk ∧
    (triggerStep s i).1.imuPk = s.imuPk ∧
    (triggerStep s i).1.otherPk = s.otherPk ∧
    (triggerStep s i).1.timeoutCount = s.timeoutCount ∧
    (triggerStep s i).1.frameNumbers = s.frameNumbers ∧
    (triggerStep s i).1.leftPk = s.leftPk ∧
    (triggerStep s i).1.rightPk = s.rightPk := by
  unfold triggerStep
  split_ifs <;> simp

/-- Two states agreeing on every counter keep agreeing after the same
streaming read outcome: the read step never consults the keep-alive
timer. -/
theorem readStep_countersOf (t1 t2 : CaptureState) (o : ReadOutcome)
    (h : countersOf t1 = countersOf t2) :
    countersOf (readStep t1 o) = countersOf (readStep t2 o) := by
  obtain ⟨b, rc, f, im, ot, tc, lt1, fn, l, r⟩ := t1
  obtain ⟨b2, rc2, f2, im2, ot2, tc2, lt2, fn2, l2, r2⟩ := t2
  simp only [countersOf, Prod.mk.injEq] at h
  obtain ⟨hb, hrc, hf, him, hot, htc, hfn, hl, hr⟩ := h
  subst hb hrc hf him hot htc hfn hl hr
  rw [readStep_setTrigger b rc f im ot tc lt2 lt1 fn l r o]
  rfl

/-- One streaming read never decreases the packet-type counters, the byte
total, or the distinct frame-number set. -/
theorem readStep_mono (s : CaptureState) (o : ReadOutcome) :
    s.framePk ≤ (readStep s o).framePk ∧
    s.imuPk ≤ (readStep s o).imuPk ∧
    s.otherPk ≤ (readStep s o).otherPk ∧
    s.bytesTotal ≤ (readStep s o).bytesTotal ∧
    s.frameNumbers ⊆ (readStep s o).frameNumbers := by
  cases o with
  | err =>
    exact ⟨le_refl _, le_refl _, le_refl _, le_refl _, Finset.Subset.refl _⟩
  | timeout =>
    exact ⟨le_refl _, le_refl _, le_refl _, le_refl _, Finset.Subset.refl _⟩
  | ok data =>
    by_cases hd : data = []
    · subst hd
      exact ⟨le_refl _, le_refl _, le_refl _, le_refl _,
        Finset.Subset.refl _⟩
    · cases hcl : classify data with
      | FRAME =>
        simp only [readStep, if_neg hd, hcl]
        refine ⟨?_, ?_, ?_, ?_, ?_⟩
        · simp [ingestFrame_framePk]
        · simp [ingestFrame_imuPk]
        · simp [ingestFrame_otherPk]
        · simp [ingestFrame_bytesTotal]
        · refine Finset.Subset.trans ?_
            (ingestFrame_frameNumbers_subset _ data)
          exact Finset.Subset.refl _
      | TELEMETRY =>
        simp [readStep, hd, hcl, Finset.Subset.refl]
      | OTHER =>
        simp [readStep, hd, hcl, Finset.Subset.refl]

/-- One streaming read preserves the invariant that the per-camera counts
sum to at most the FRAME packet count: a FRAME packet raises the FRAME
count by one and at most one of the per-camera counts by one. -/
theorem readStep_lr (s : CaptureState) (o : ReadOutcome)
    (h : s.leftPk + s.rightPk ≤ s.framePk) :
    (readStep s o).leftPk + (readStep s o).rightPk
      ≤ (readStep s o).framePk := by
  cases o with
  | err => exact h
  | timeout => exact h
  | ok data =>
    by_cases hd : data = []
    · subst hd
      exact h
    · cases hcl : classify data with
      | FRAME =>
        simp only [readStep, if_neg hd, hcl]
        simp [ingestFrame_leftPk, ingestFrame_rightPk, ingestFrame_framePk]
        split_ifs <;> omega
      | TELEMETRY =>
        simp only [readStep, if_neg hd, hcl]
        exact h
      | OTHER =>
        simp only [readStep, if_neg hd, hcl]
        exact h

/-- One full loop iteration preserves the per-camera-versus-FRAME
invariant. -/
theorem captureStep_lr (s : CaptureState) (i : IterInput)
    (h : s.leftPk + s.rightPk ≤ s.framePk) :
    (captureStep s i).leftPk + (captureStep s i).rightPk
      ≤ (captureStep s i).framePk := by
  have ht := triggerStep_fields s i
  apply readStep_lr
  rw [ht.2.2.2.2.2.2.2.1, ht.2.2.2.2.2.2.2.2, ht.2.2.1]
  exact h

/-- The per-camera-versus-FRAME invariant holds at the end of every run
that starts in a state satisfying it. -/
theorem captureRun_lr (dur start : Nat) :
    ∀ (tr : List IterInput) (s : CaptureState),
      s.leftPk + s.rightPk ≤ s.framePk →
      (captureRun dur start tr s).1.leftPk
        + (captureRun dur start tr s).1.rightPk
        ≤ (captureRun dur start tr s).1.framePk := by
  intro tr
  induction tr with
  | nil =>
    intro s h
    exact h
  | cons i rest ih =>
    intro s h
    by_cases hlt : i.now - start < dur
    · simp only [captureRun, if_pos hlt]
      exact ih _ (captureStep_lr s i h)
    · simp only [captureRun, if_neg hlt]
      exact h

/-- C8 counterexample: the 2-byte packet AA 8F is too short to contain the
camera flag and frame number fields, yet the capture loop counts it as
FRAME (frame counter 1, other counter 0) and merely skips extraction -- it
is not counted as OTHER as the claim states. -/
theorem c8_counterexample :
    (readStep initState (.ok [0xAA, 0x8F])).framePk = 1 ∧
    (readStep initState (.ok [0xAA, 0x8F])).otherPk = 0 ∧
    (readStep initState (.ok [0xAA, 0x8F])).frameNumbers
      = (∅ : Finset Nat) := by
  decide

/-- C8 amended: every FRAME-classified packet increments the FRAME
counter; when it is at least 12 bytes long, the little-endian 16-bit frame
number at bytes 4-5 is added to the distinct-frame set and the camera flag
at byte 8 selects the per-camera counter (0xFC left, 0xFD right); a
FRAME-signature packet shorter than 12 bytes is skipped for extraction
without raising -- frame set, per-camera counters and the OTHER counter
are all unchanged -- but it still counts as FRAME, not OTHER. -/
theorem c8_amended (s : CaptureState) (p : List Nat)
    (hp : classify p = .FRAME) :
    ((readStep s (.ok p)).framePk = s.framePk + 1) ∧
    (12 ≤ p.length →
      (readStep s (.ok p)).frameNumbers
        = insert (p.getD 4 0 + 256 * p.getD 5 0) s.frameNumbers ∧
      (p.getD 8 0 = 0xFC →
        (readStep s (.ok p)).leftPk = s.leftPk + 1 ∧
        (readStep s (.ok p)).rightPk = s.rightPk) ∧
      (p.getD 8 0 = 0xFD →
        (readStep s (.ok p)).rightPk = s.rightPk + 1 ∧
        (readStep s (.ok p)).leftPk = s.leftPk)) ∧
    (p.length < 12 →
      (readStep s (.ok p)).frameNumbers = s.frameNumbers ∧
      (readStep s (.ok p)).leftPk = s.leftPk ∧
      (readStep s (.ok p)).rightPk = s.rightPk ∧
      (readStep s (.ok p)).otherPk = s.otherPk) := by
  have hne : p ≠ [] := by
    intro he
    subst he
    exact absurd hp (by decide)
  simp only [readStep, if_neg hne, hp]
  refine ⟨?_, fun h12 => ⟨?_, fun hfc => ⟨?_, ?_⟩, fun hfd => ⟨?_, ?_⟩⟩,
    fun hshort => ⟨?_, ?_, ?_, ?_⟩⟩
  · simp [ingestFrame_framePk]
  · simp [ingestFrame_frameNumbers_long _ _ h12]
  · simp [ingestFrame_leftPk, h12, hfc]
    simpa [List.getD] using hfc
  · simp [ingestFrame_rightPk, h12, hfc]
    simp [List.getD] at hfc
    simp [hfc]
  · simp [ingestFrame_rightPk, h12, hfd]
    simpa [List.getD] using hfd
  · simp [ingestFrame_leftPk, h12, hfd]
    simp [List.getD] at hfd
    simp [hfd]
  · simp [ingestFrame_short _ _ hshort]
  · simp [ingestFrame_short _ _ hshort]
  · simp [ingestFrame_short _ _ hshort]
  · simp [ingestFrame_short _ _ hshort]

/-- Witness for C8 amended at a concrete 12-byte right-camera FRAME
packet. -/
theorem c8_amended_witness :
    (readStep initState
      (.ok [0xAA, 0x8F, 0, 0, 0x05, 0x01, 0, 0, 0xFD, 0, 0, 0])).framePk
      = initState.framePk + 1 :=
  (c8_amended initState [0xAA, 0x8F, 0, 0, 0x05, 0x01, 0, 0, 0xFD, 0, 0, 0]
    (by decide)).1

/-- C9 counterexample: (a) with the last trigger at t = 100 ms and the
clock at t = 400 ms, exactly the 300 ms keep-alive interval has elapsed,
yet no trigger is attempted (the source requires strictly more); (b) from
the same state at t = 500 ms, a successful trigger write resets the
keep-alive timer to 500 while a failed one leaves it at 100 -- the send
outcome does change the session's keep-alive state. -/
theorem c9_counterexample :
    ((triggerStep ⟨0, 0, 0, 0, 0, 0, 100, ∅, 0, 0⟩
        ⟨400, true, true, .timeout⟩).2 = false ∧
      keepAliveMs ≤ 400 - 100) ∧
    ((triggerStep ⟨0, 0, 0, 0, 0, 0, 100, ∅, 0, 0⟩
        ⟨500, true, true, .timeout⟩).1.lastTrigger = 500 ∧
     (triggerStep ⟨0, 0, 0, 0, 0, 0, 100, ∅, 0, 0⟩
        ⟨500, false, true, .timeout⟩).1.lastTrigger = 100) := by
  decide

/-- Replacing every trigger-write and ack-read outcome of a trace by
success changes no session counter and not the close-time behavior of the
whole run: the keep-alive outcomes only ever influence the keep-alive
timer itself. -/
theorem captureRun_scrub (dur start : Nat) :
    ∀ (tr : List IterInput) (s1 s2 : CaptureState),
      countersOf s1 = countersOf s2 →
      countersOf (captureRun dur start (scrubTrigger tr) s1).1
          = countersOf (captureRun dur start tr s2).1 ∧
      (captureRun dur start (scrubTrigger tr) s1).2
          = (captureRun dur start tr s2).2 := by
  intro tr
  induction tr with
  | nil =>
    intro s1 s2 h
    exact ⟨h, rfl⟩
  | cons i rest ih =>
    intro s1 s2 h
    simp only [scrubTrigger, List.map_cons] at *
    by_cases hlt : i.now - start < dur
    · simp only [captureRun, hlt, if_true]
      apply ih
      apply readStep_countersOf
      rw [triggerStep_countersOf, triggerStep_countersOf]
      exact h
    · simp only [captureRun, hlt, if_false]
      exact ⟨h, by simp⟩

/-- C9 amended: the keep-alive fires exactly when strictly more than the
300 ms interval has elapsed since the last recorded trigger (not at
exactly the interval); the outcomes of the trigger send and of its
acknowledgement read never change any session counter nor the run's
close-time behavior; the only state they influence is the keep-alive
timer itself, which is reset to the current time exactly when the send
succeeds. -/
theorem c9_amended :
    (∀ (s : CaptureState) (i : IterInput),
      ((triggerStep s i).2 = true ↔ keepAliveMs < i.now - s.lastTrigger)) ∧
    (∀ (s : CaptureState) (i : IterInput),
      (triggerStep s i).1.lastTrigger
        = (if keepAliveMs < i.now - s.lastTrigger ∧ i.writeOk = true
           then i.now else s.lastTrigger)) ∧
    (∀ (dur start : Nat) (tr : List IterInput) (s : CaptureState),
      countersOf (captureRun dur start (scrubTrigger tr) s).1
          = countersOf (captureRun dur start tr s).1 ∧
      (captureRun dur start (scrubTrigger tr) s).2
          = (captureRun dur start tr s).2) := by
  refine ⟨fun s i => ?_, fun s i => ?_, fun dur start tr s =>
    captureRun_scrub dur start tr s s rfl⟩
  · unfold triggerStep
    split_ifs with hg <;> simp [hg]
  · unfold triggerStep
    split_ifs with hg hw <;> simp_all

/-- C10: at every point of a capture run from the initial state, the left
plus right per-camera counts never exceed the FRAME packet count (a FRAME
packet that is too short or whose camera flag is neither 0xFC nor 0xFD
increments neither per-camera counter -- made exact by the second
conjunct), and one loop iteration never decreases the FRAME, TELEMETRY
and OTHER counters, the total byte count, or the distinct frame-number
set. -/
theorem c10_counter_invariants :
    (∀ (dur start : Nat) (tr : List IterInput),
      (captureRun dur start tr initState).1.leftPk
        + (captureRun dur start tr initState).1.rightPk
        ≤ (captureRun dur start tr initState).1.framePk) ∧
    (∀ (s : CaptureState) (p : List Nat),
      (readStep s (.ok p)).leftPk = s.leftPk +
        (if ¬p = [] ∧ classify p = .FRAME ∧ 12 ≤ p.length
            ∧ p.getD 8 0 = 0xFC then 1 else 0) ∧
      (readStep s (.ok p)).rightPk = s.rightPk +
        (if ¬p = [] ∧ classify p = .FRAME ∧ 12 ≤ p.length
            ∧ p.getD 8 0 = 0xFD then 1 else 0)) ∧
    (∀ (s : CaptureState) (i : IterInput),
      s.framePk ≤ (captureStep s i).framePk ∧
      s.imuPk ≤ (captureStep s i).imuPk ∧
      s.otherPk ≤ (captureStep s i).otherPk ∧
      s.bytesTotal ≤ (captureStep s i).bytesTotal ∧
      s.frameNumbers ⊆ (captureStep s i).frameNumbers) := by
  refine ⟨fun dur start tr =>
    captureRun_lr dur start tr initState (by decide),
    fun s p => ⟨?_, ?_⟩, fun s i => ?_⟩
  · by_cases hd : p = []
    · simp [readStep, hd]
    · cases hcl : classify p with
      | FRAME =>
        simp only [readStep, if_neg hd, hcl]
        simp [ingestFrame_leftPk, hd, hcl]
      | TELEMETRY => simp [readStep, hd, hcl]
      | OTHER => simp [readStep, hd, hcl]
  · by_cases hd : p = []
    · simp [readStep, hd]
    · cases hcl : classify p with
      | FRAME =>
        simp only [readStep, if_neg hd, hcl]
        simp [ingestFrame_rightPk, hd, hcl]
      | TELEMETRY => simp [readStep, hd, hcl]
      | OTHER => simp [readStep, hd, hcl]
  · have ht := triggerStep_fields s i
    have hr := readStep_mono (triggerStep s i).1 i.readOutcome
    refine ⟨?_, ?_, ?_, ?_, ?_⟩
    · have hx := hr.1
      rw [ht.2.2.1] at hx
      exact hx
    · have hx := hr.2.1
      rw [ht.2.2.2.1] at hx
      exact hx
    · have hx := hr.2.2.1
      rw [ht.2.2.2.2.1] at hx
      exact hx
    · have hx := hr.2.2.2.1
      rw [ht.1] at hx
      exact hx
    · have hx := hr.2.2.2.2
      rw [ht.2.2.2.2.2.2.1] at hx
      exact hx

end StereoProbe
